import Mathlib

/-!
Verification of the message-interpretation layer of the play-register bot
(`handlers.py`).  Python strings are modelled as `List Char`; Python string
operations (`startswith`, `index`, `strip`, `split`, `replace(.,.,1)`,
`lower`, slicing) are given explicit executable models below.  Code that can
raise an uncaught exception is modelled in `Option` (`none` = the call raises).
-/

abbrev Str := List Char

/-- The characters of a Lean string literal, used to write concrete inputs. -/
def chars (s : String) : Str := s.toList

/-- Model of Python `str.lower()` on the ASCII texts used here. -/
def pyLower (s : Str) : Str := s.map Char.toLower

/-- Model of Python `str.isspace` on a single character. -/
def pySpace (c : Char) : Bool := c.isWhitespace

/-- Model of Python `str.strip()`: drop whitespace from both ends. -/
def pyStrip (s : Str) : Str :=
  ((s.dropWhile pySpace).reverse.dropWhile pySpace).reverse

/-- Model of Python `str.index(c)`: index of the first occurrence of `c`,
`none` when `c` does not occur (where Python raises `ValueError`). -/
def pyIndex (c : Char) : Str → Option Nat
  | [] => none
  | x :: xs => if x = c then some 0 else (pyIndex c xs).map (· + 1)

/-- Model of Python `str.split(d)` with an explicit one-character separator:
splits at every occurrence of `d`, keeping empty pieces; the result is never
empty (`"".split(d) = [""]`). -/
def pySplit (d : Char) : Str → List Str
  | [] => [[]]
  | c :: cs =>
    if c = d then [] :: pySplit d cs
    else
      match pySplit d cs with
      | [] => [[c]]
      | s :: rest => (c :: s) :: rest

/-- Helper for `pyReplaceFirst`: remove the leftmost occurrence of the
non-empty pattern `kw`, if any. -/
def removeFirst (kw : Str) : Str → Str
  | [] => []
  | c :: cs =>
    if kw.isPrefixOf (c :: cs) then (c :: cs).drop kw.length
    else c :: removeFirst kw cs

/-- Model of Python `s.replace(kw, '', 1)`: remove the leftmost occurrence of
`kw` from `s`; `s` unchanged when `kw` does not occur or is empty (replacing
the empty string by the empty string changes nothing). -/
def pyReplaceFirst (s kw : Str) : Str :=
  if kw = [] then s else removeFirst kw s

/-- Decimal rendering of a count, as Python `%s` renders an `int`. -/
def natStr (n : Nat) : Str := (Nat.repr n).toList

/-- An inbound chat message: raw text content and the author reference
(modelled by the author's user id, which is also its rendered form). -/
structure Message where
  content : Str
  author : Str
deriving DecidableEq, Repr

/-- `split_by_first_mention` (handlers.py 22-28): if the content starts with
`<@`, cut at the first `>` (inclusive) and strip the remainder; otherwise
return the empty string and the full content.  `none` models the uncaught
`ValueError` of `msg.index('>')` when the content starts with `<@` but has
no `>`. -/
def split_by_first_mention (message : Message) : Option (Str × Str) :=
  let msg := message.content
  if (chars "<@").isPrefixOf msg then
    match pyIndex '>' msg with
    | none => none
    | some i => some (msg.take (i + 1), pyStrip (msg.drop (i + 1)))
  else
    some ([], msg)

/-- `is_bot_mention` (handlers.py 31-32), with the configured `CLIENT_ID`
explicit: strip the `<@!`/`<@` wrapper and the closing `>` and compare the
inner identifier to the client id.  (`mention[k:-1]` is modelled by
`(drop k).dropLast`.) -/
def is_bot_mention (clientId : Str) (mention : Str) : Bool :=
  ((mention.drop (if (chars "<@!").isPrefixOf mention then 3 else 2)).dropLast : Str) = clientId

/-- `MentionMessageHandler.should_handle` (handlers.py 77-79): the first token
must be a mention of this bot and the remainder must start, case-insensitively,
with one of the handler's keywords.  `none` models the exception propagated
from `split_by_first_mention`. -/
def MentionMessageHandler.should_handle (clientId : Str) (keywords : List Str)
    (message : Message) : Option Bool :=
  (split_by_first_mention message).map fun p =>
    is_bot_mention clientId p.1 &&
      keywords.any fun kw => (pyLower kw).isPrefixOf (pyLower p.2)

/-- `MentionMessageHandler.split_string_by_keywords` (handlers.py 81-89): the
first keyword whose literal (case-sensitive) occurrence can be removed wins;
the remainder is stripped; otherwise `(none, original string)`. -/
def MentionMessageHandler.split_string_by_keywords (keywords : List Str)
    (string : Str) : Option Str × Str :=
  match keywords with
  | [] => (none, string)
  | keyword :: rest =>
    let kw_removed_string := pyReplaceFirst string keyword
    if kw_removed_string ≠ string then (some keyword, pyStrip kw_removed_string)
    else MentionMessageHandler.split_string_by_keywords rest string

/-- `ContentBasedHandler.should_handle` (handlers.py 66-67): the lowered
content starts with one of the handler's fragments (also lowered). -/
def ContentBasedHandler.should_handle (fragments : List Str) (message : Message) : Bool :=
  fragments.any fun f => (pyLower f).isPrefixOf (pyLower message.content)

/-- Modelled from the spec: a catalog game (`game.py` is not among the
sources).  Spec 3/6: a game exposes a canonical name, a set of string
aliases, a minimum player threshold implied by `is_ready_to_play`, and
readiness announcement text(s); its rendered form (`str(game)`) is its
canonical name. -/
structure GameInfo where
  name : Str
  aliases : List Str
  minPlayers : Nat
  readyMessages : List Str
deriving DecidableEq, Repr

/-- Modelled from the spec: a would-play record (`db.py` is not among the
sources).  Spec 3: player identity, game, and an implicit timestamp used for
"last" lookups. -/
structure WouldPlayRec where
  user : Str
  game : GameInfo
  time : Nat
deriving DecidableEq, Repr

/-- Modelled from the spec: the Roster Store state (`db.py` is not among the
sources) — the collection of would-play records plus a clock supplying the
implicit timestamps. -/
structure DB where
  records : List WouldPlayRec
  clock : Nat
deriving DecidableEq, Repr

/-- Modelled from the spec: `db.record_would_play(player, game)` returns a
record with the player and game (spec 6); it timestamps the record with the
current instant and stores it.  Spec 8: membership is idempotent —
availability below counts distinct users, so re-recording adds 0. -/
def DB.record_would_play (db : DB) (user : Str) (g : GameInfo) : DB × WouldPlayRec :=
  let r := WouldPlayRec.mk user g db.clock
  (⟨r :: db.records, db.clock + 1⟩, r)

/-- Modelled from the spec: `game.get_available_players()` — the players
currently committed to `g`, each counted once (spec 3: a player appears at
most once per game's active roster). -/
def DB.get_available_players (db : DB) (g : GameInfo) : List Str :=
  ((db.records.filter fun r => r.game == g).map (·.user)).dedup

/-- Modelled from the spec: `game.is_ready_to_play` — the threshold-crossing
predicate on the committed-player count (spec 3, glossary). -/
def DB.is_ready_to_play (db : DB) (g : GameInfo) : Bool :=
  g.minPlayers ≤ (db.get_available_players g).length

/-- Modelled from the spec: `game.get_ready_messages()` — the game's canonical
readiness announcement text(s). -/
def GameInfo.get_ready_messages (g : GameInfo) : List Str := g.readyMessages

/-- `get_any_ready_messages` (handlers.py 16-19): the game's readiness
announcements when it is ready, else nothing. -/
def get_any_ready_messages (db : DB) (g : GameInfo) : List Str :=
  if db.is_ready_to_play g then g.get_ready_messages else []

/-- Modelled from the spec: `db.clear_game(game)` clears the named game's
roster, leaving other games' records intact. -/
def DB.clear_game (db : DB) (g : GameInfo) : DB :=
  ⟨db.records.filter fun r => r.game ≠ g, db.clock⟩

/-- Modelled from the spec: `db.get_last_would_plays_at_same_time()` — all
records sharing the most recent timestamp, across games (spec 6); empty when
there are no records. -/
def DB.get_last_would_plays_at_same_time (db : DB) : List WouldPlayRec :=
  match (db.records.map (·.time)).max? with
  | none => []
  | some t => db.records.filter fun r => r.time == t

/-- Modelled from the spec: `db.get_last_would_play(game)` — the most recent
record for the given game, or the most recent record overall when the game is
`none` (spec 6 and the Same handler's "most recent applicable game"). -/
def DB.get_last_would_play (db : DB) (g : Option GameInfo) : Option WouldPlayRec :=
  let pool : List WouldPlayRec := match g with
    | some game => db.records.filter fun r => r.game == game
    | none => db.records
  match (pool.map (·.time)).max? with
  | none => none
  | some t => (pool.filter fun r => r.time == t).head?

/-- Modelled from the spec: `lookup_game_by_name_or_alias` (`game.py` is not
among the sources).  Spec 4.2: case-insensitive match against canonical names
first, then against any alias of any catalog game; `none` for unknown input. -/
def lookup_game_by_name_or_alias (catalog : List GameInfo) (name : Str) : Option GameInfo :=
  match catalog.find? (fun g => pyLower g.name == pyLower name) with
  | some g => some g
  | none => catalog.find? fun g => g.aliases.any fun a => pyLower a == pyLower name

/-- Modelled from the spec: `extract_remainder_after_fragments` (`utils.py` is
not among the sources).  Spec 4.1: "finds whichever fragment the content
starts with (case-insensitive) and returns the content with that fragment
removed and trimmed; if none match, returns the content unchanged". -/
def extract_remainder_after_fragments (fragments : List Str) (content : Str) : Str :=
  match fragments.find? (fun f => (pyLower f).isPrefixOf (pyLower content)) with
  | some f => pyStrip (content.drop f.length)
  | none => content

/-- The loop body of `GameExtractionMixin.get_all_responses` (handlers.py
46-49): walk the split candidates, skip empty ones, look each non-empty one up
and run the per-game generator, concatenating responses and threading the
roster state; a raising generator (`none`) aborts the whole call. -/
def runPerGame (withGame : DB → Option GameInfo → Option (DB × List Str))
    (lookup : Str → Option GameInfo) : DB → List Str → Option (DB × List Str)
  | db, [] => some (db, [])
  | db, n :: ns =>
    if n.isEmpty then runPerGame withGame lookup db ns
    else
      match withGame db (lookup n) with
      | none => none
      | some (db1, rs) =>
        match runPerGame withGame lookup db1 ns with
        | none => none
        | some (db2, rs2) => some (db2, rs ++ rs2)

/-- `GameExtractionMixin.get_all_responses` (handlers.py 41-52): split the
remainder after the trigger fragments on `/`; if any candidate is non-empty,
run the per-game generator over the non-empty candidates, otherwise fall back
to the handler's no-game generator. -/
def GameExtractionMixin.get_all_responses (fragments : List Str)
    (lookup : Str → Option GameInfo)
    (withGame : DB → Option GameInfo → Option (DB × List Str))
    (withoutGame : DB → Option (DB × List Str))
    (db : DB) (message : Message) : Option (DB × List Str) :=
  let plays := extract_remainder_after_fragments fragments message.content
  let game_names := pySplit '/' plays
  if game_names.any (fun n => !n.isEmpty) then runPerGame withGame lookup db game_names
  else withoutGame db

/-- `WouldPlayHandler.fragments` (handlers.py 93): the enumerated trigger
variants (straight and curly apostrophes, typos). -/
def WouldPlayHandler.fragments : List Str :=
  [chars "I\x27d play", chars "id play", chars "I\x27d paly", chars "id paly",
   chars "I’d play", chars "I’d paly", chars "I’dplay", chars "I’dpaly"]

/-- `WouldPlayHandler.get_all_responses_with_game` (handlers.py 95-97): record
the author's intent, answer with the commitment count, append any readiness
messages.  `none` models the `AttributeError` raised on
`game.get_available_players()` when the lookup produced no game. -/
def WouldPlayHandler.get_all_responses_with_game (author : Str) (db : DB)
    (g : Option GameInfo) : Option (DB × List Str) :=
  match g with
  | none => none
  | some game =>
    let p := db.record_would_play author game
    some (p.1,
      [p.2.user ++ chars " would play " ++ game.name ++ chars " (that\x27s " ++
        natStr (p.1.get_available_players game).length ++ chars ")"] ++
      get_any_ready_messages p.1 game)

/-- `WouldPlayHandler.get_all_responses`: the mixin pipeline with the
would-play fragments and per-game generator (no-game fallback inherited from
the mixin: no responses). -/
def WouldPlayHandler.get_all_responses (catalog : List GameInfo) (db : DB)
    (message : Message) : Option (DB × List Str) :=
  GameExtractionMixin.get_all_responses WouldPlayHandler.fragments
    (lookup_game_by_name_or_alias catalog)
    (WouldPlayHandler.get_all_responses_with_game message.author)
    (fun db0 => some (db0, [])) db message

/-- `SameHandler.fragments` (handlers.py 101). -/
def SameHandler.fragments : List Str := [chars "same to", chars "same"]

/-- The first loop of `SameHandler.get_all_responses_without_game`
(handlers.py 112-114): record the author's intent for each game in turn,
collecting one commitment announcement per game, threading the roster state. -/
def SameHandler.recordLoop (author : Str) : DB → List GameInfo → DB × List Str
  | db, [] => (db, [])
  | db, g :: gs =>
    let p := db.record_would_play author g
    let msg := p.2.user ++ chars " would also play " ++ g.name ++ chars " (that\x27s " ++
      natStr (p.1.get_available_players g).length ++ chars ")"
    let q := SameHandler.recordLoop author p.1 gs
    (q.1, msg :: q.2)

/-- `SameHandler.get_all_responses_without_game` (handlers.py 103-117): no
prior would-play means no responses; otherwise record intent for every game of
the most recent batch (Python iterates a `set`; deduplication is modelled by
`List.dedup`), then append the readiness messages of all affected games after
every commitment announcement. -/
def SameHandler.get_all_responses_without_game (author : Str) (db : DB) : DB × List Str :=
  let last_would_plays := db.get_last_would_plays_at_same_time
  if last_would_plays.isEmpty then (db, [])
  else
    let games := (last_would_plays.map (·.game)).dedup
    let p := SameHandler.recordLoop author db games
    (p.1, p.2 ++ games.flatMap (get_any_ready_messages p.1))

/-- `SameHandler.get_all_responses_with_optional_game` (handlers.py 122-131):
nothing to do when no matching last would-play exists; otherwise default the
game to the record's game, record the author's intent and answer with the
commitment count plus any readiness messages. -/
def SameHandler.get_all_responses_with_optional_game (author : Str) (db : DB)
    (g : Option GameInfo) : DB × List Str :=
  match db.get_last_would_play g with
  | none => (db, [])
  | some last_would_play =>
    let game := g.getD last_would_play.game
    let p := db.record_would_play author game
    (p.1,
      [p.2.user ++ chars " would also play " ++ game.name ++ chars " (that\x27s " ++
        natStr (p.1.get_available_players game).length ++ chars ")"] ++
      get_any_ready_messages p.1 game)

/-- `SameHandler.get_all_responses_with_game` (handlers.py 119-120): defers to
the optional-game variant; never raises. -/
def SameHandler.get_all_responses_with_game (author : Str) (db : DB)
    (g : Option GameInfo) : Option (DB × List Str) :=
  some (SameHandler.get_all_responses_with_optional_game author db g)

/-- `SameHandler.get_all_responses`: the mixin pipeline with the "same"
fragments and the overridden no-game fallback. -/
def SameHandler.get_all_responses (catalog : List GameInfo) (db : DB)
    (message : Message) : Option (DB × List Str) :=
  GameExtractionMixin.get_all_responses SameHandler.fragments
    (lookup_game_by_name_or_alias catalog)
    (SameHandler.get_all_responses_with_game message.author)
    (fun db0 => some (SameHandler.get_all_responses_without_game message.author db0))
    db message

/-- `StatusHandler.keywords` (handlers.py 135). -/
def StatusHandler.keywords : List Str := [chars "status"]

/-- The loop of `StatusHandler.get_all_responses` (handlers.py 140-144):
collect a count line for every game with at least one available player, and,
separately, the readiness messages of those same games. -/
def StatusHandler.loop (db : DB) : List GameInfo → List Str × List Str
  | [] => ([], [])
  | g :: gs =>
    let players := db.get_available_players g
    let p := StatusHandler.loop db gs
    if players.isEmpty then p
    else ((g.name ++ chars " has " ++ natStr players.length) :: p.1,
      get_any_ready_messages db g ++ p.2)

/-- `StatusHandler.get_all_responses` (handlers.py 137-145): a single reply
joining `Bot alive`, the count lines and the readiness lines with newlines. -/
def StatusHandler.get_all_responses (catalog : List GameInfo) (db : DB) : List Str :=
  let p := StatusHandler.loop db catalog
  [List.intercalate (chars "\n") ((chars "Bot alive" :: p.1) ++ p.2)]

/-- `ClearHandler.keywords` (handlers.py 149). -/
def ClearHandler.keywords : List Str := [chars "clear"]

/-- `ClearHandler.get_all_responses_with_game` (handlers.py 151-156): clear
the game's roster and confirm, or answer `No game specified!` when the lookup
produced no game; never raises. -/
def ClearHandler.get_all_responses_with_game (db : DB)
    (g : Option GameInfo) : Option (DB × List Str) :=
  match g with
  | some game => some (db.clear_game game, [chars "Cleared " ++ game.name])
  | none => some (db, [chars "No game specified!"])

/-- `ClearHandler.get_all_responses`: the mixin pipeline with the `clear`
keyword as fragment (no-game fallback inherited from the mixin: no
responses). -/
def ClearHandler.get_all_responses (catalog : List GameInfo) (db : DB)
    (message : Message) : Option (DB × List Str) :=
  GameExtractionMixin.get_all_responses ClearHandler.keywords
    (lookup_game_by_name_or_alias catalog)
    (fun db0 g => ClearHandler.get_all_responses_with_game db0 g)
    (fun db0 => some (db0, [])) db message

/-- `create_mention` (handlers.py 12-13). -/
def create_mention (player : Str) : Str := chars "<@!" ++ player ++ chars ">"

/-- Modelled from the spec: `game.get_players_for_next_game()` — the
next-session player selection (spec 6); its exact choice lives in the absent
`game.py` and is modelled as the currently available players. -/
def DB.get_players_for_next_game (db : DB) (g : GameInfo) : List Str :=
  db.get_available_players g

/-- `PingHandler.keywords` (handlers.py 168). -/
def PingHandler.keywords : List Str := [chars "ping", chars "p"]

/-- `PingHandler.get_all_responses_with_game` (handlers.py 170-173): compute
the next game's players, clear the roster, and reply with their mentions.
`none` models the `AttributeError` raised on `game.get_players_for_next_game()`
when the lookup produced no game. -/
def PingHandler.get_all_responses_with_game (db : DB)
    (g : Option GameInfo) : Option (DB × List Str) :=
  match g with
  | none => none
  | some game =>
    let players := db.get_players_for_next_game game
    let db1 := db.clear_game game
    some (db1,
      [List.intercalate (chars ",") (players.map create_mention) ++
        chars " - ready to play " ++ game.name ++ chars "."])

/-- `PingHandler.get_all_responses`: the mixin pipeline with the ping
keywords as fragments (no-game fallback inherited from the mixin: no
responses). -/
def PingHandler.get_all_responses (catalog : List GameInfo) (db : DB)
    (message : Message) : Option (DB × List Str) :=
  GameExtractionMixin.get_all_responses PingHandler.keywords
    (lookup_game_by_name_or_alias catalog)
    (fun db0 g => PingHandler.get_all_responses_with_game db0 g)
    (fun db0 => some (db0, [])) db message

/-- `QueryPropertyHandler.keywords` (handlers.py 192). -/
def QueryPropertyHandler.keywords : List Str := [chars "query"]

/-- The argument-parsing prefix of `QueryPropertyHandler.get_all_responses`
(handlers.py 194-197): strip the mention, remove the first literal keyword
occurrence, and read `attribute` and `game_name` as the first two
space-separated tokens.  `none` models the exceptions of a failing mention
split or of unpacking fewer than two tokens. -/
def QueryPropertyHandler.parse_attribute_and_game (message : Message) :
    Option (Str × Str) :=
  match split_by_first_mention message with
  | none => none
  | some (_, remainder) =>
    let p := MentionMessageHandler.split_string_by_keywords
      QueryPropertyHandler.keywords remainder
    match (pySplit ' ' p.2).take 2 with
    | [attr, game_name] => some (attr, game_name)
    | _ => none

/-- A test catalog game: chess, threshold 2. -/
def chessG : GameInfo := ⟨chars "chess", [], 2, [chars "chess is ready"]⟩

/-- A test catalog game: go, threshold 2. -/
def goG : GameInfo := ⟨chars "go", [], 2, [chars "go is ready"]⟩

/-- The empty roster store. -/
def dbEmpty : DB := ⟨[], 0⟩

/-- A roster store holding one would-play record: player `B` on chess. -/
def dbOne : DB := ⟨[⟨chars "B", chessG, 0⟩], 1⟩

theorem pyIndex_eq_none (c : Char) (s : Str) (h : c ∉ s) : pyIndex c s = none := by
  induction s with
  | nil => rfl
  | cons a t ih =>
    have ha : ¬ (a = c) := fun e => h (by simp [e])
    simp [pyIndex, ha, ih fun hc => h (List.mem_cons_of_mem _ hc)]

theorem pyIndex_append (c : Char) (pre rest : Str) (h : c ∉ pre) :
    pyIndex c (pre ++ c :: rest) = some pre.length := by
  induction pre with
  | nil => simp [pyIndex]
  | cons a t ih =>
    have ha : ¬ (a = c) := fun e => h (by simp [e])
    simp [pyIndex, ha, ih fun hc => h (List.mem_cons_of_mem _ hc)]

theorem isPrefixOf_self_append (a b : Str) : a.isPrefixOf (a ++ b) = true := by
  induction a with
  | nil => cases b <;> rfl
  | cons x t ih => simp [List.isPrefixOf, ih]

/-- Claim C6: on a text beginning with a mention token, `split_by_first_mention`
returns the mention substring through its closing delimiter together with the
whitespace-trimmed remainder (only the first mention is consumed); on any
other text it returns the empty string and the full original text; in
particular on `<@!123> ping` it returns `(<@!123>, ping)` and on `hello` it
returns `(empty, hello)`. -/
theorem C6_split_by_first_mention :
    (∀ m : Message, (chars "<@").isPrefixOf m.content = false →
      split_by_first_mention m = some ([], m.content))
    ∧ (∀ (author idPart rest : Str), '>' ∉ idPart →
      split_by_first_mention ⟨chars "<@" ++ idPart ++ '>' :: rest, author⟩ =
        some (chars "<@" ++ idPart ++ ['>'], pyStrip rest))
    ∧ split_by_first_mention ⟨chars "<@!123> ping", chars "A"⟩ =
        some (chars "<@!123>", chars "ping")
    ∧ split_by_first_mention ⟨chars "hello", chars "A"⟩ = some ([], chars "hello") := by
  refine ⟨?_, ?_, by decide, by decide⟩
  · intro m h
    simp [split_by_first_mention, h]
  · intro author idPart rest h
    have hpre : '>' ∉ chars "<@" ++ idPart := by
      intro hm
      rcases List.mem_append.mp hm with h1 | h2
      · exact absurd h1 (by decide)
      · exact h h2
    have hp : (chars "<@").isPrefixOf (chars "<@" ++ idPart ++ '>' :: rest) = true := by
      have h2 := isPrefixOf_self_append (chars "<@") (idPart ++ '>' :: rest)
      rw [← List.append_assoc] at h2
      exact h2
    have hidx := pyIndex_append '>' (chars "<@" ++ idPart) rest hpre
    have hc : chars "<@" ++ idPart ++ '>' :: rest =
        (chars "<@" ++ idPart ++ ['>']) ++ rest := by simp
    have hlen : (chars "<@" ++ idPart ++ ['>']).length = (chars "<@" ++ idPart).length + 1 := by
      simp
      omega
    simp only [split_by_first_mention, hp, if_true, hidx]
    rw [hc, List.take_left' hlen, List.drop_left' hlen]

/-- Claim C8: `split_by_first_mention` fails (the closing-delimiter index
lookup raises) on every text that starts with `<@` but contains no `>`, and so
does the mention-handler applicability test built on it, aborting dispatch of
such a message. -/
theorem C8_split_by_first_mention_partial :
    ∀ (m : Message) (clientId : Str) (keywords : List Str),
    (chars "<@").isPrefixOf m.content = true → '>' ∉ m.content →
    split_by_first_mention m = none ∧
      MentionMessageHandler.should_handle clientId keywords m = none := by
  intro m cid kws hp hnm
  have h1 : split_by_first_mention m = none := by
    simp [split_by_first_mention, hp, pyIndex_eq_none '>' m.content hnm]
  exact ⟨h1, by simp [MentionMessageHandler.should_handle, h1]⟩

/-- Witness for claim C8 at the concrete input `<@123`. -/
theorem C8_witness :
    split_by_first_mention ⟨chars "<@123", chars "A"⟩ = none ∧
      MentionMessageHandler.should_handle (chars "123") StatusHandler.keywords
        ⟨chars "<@123", chars "A"⟩ = none :=
  C8_split_by_first_mention_partial ⟨chars "<@123", chars "A"⟩ (chars "123")
    StatusHandler.keywords (by decide) (by decide)

/-- Witness for claim C6 at the concrete inputs `<@!123> ping` and `hello`. -/
theorem C6_witness :
    split_by_first_mention ⟨chars "<@" ++ chars "!123" ++ '>' :: chars " ping", chars "A"⟩ =
      some (chars "<@" ++ chars "!123" ++ ['>'], pyStrip (chars " ping")) ∧
    split_by_first_mention ⟨chars "hello", chars "A"⟩ = some ([], chars "hello") :=
  ⟨C6_split_by_first_mention.2.1 (chars "A") (chars "!123") (chars " ping") (by decide),
    C6_split_by_first_mention.1 ⟨chars "hello", chars "A"⟩ (by decide)⟩

/-- Counterexample to claim C3: in `<@!123> please query aliases chess` the
keyword `query` occurs in the remainder after the mention (exhibited by the
surrounding pieces), yet the QueryProperty applicability test answers false,
because `should_handle` only accepts a remainder that starts with a keyword. -/
theorem C3_counterexample :
    split_by_first_mention ⟨chars "<@!123> please query aliases chess", chars "A"⟩ =
      some (chars "<@!123>", chars "please query aliases chess")
    ∧ chars "please " ++ chars "query" ++ chars " aliases chess" =
        chars "please query aliases chess"
    ∧ MentionMessageHandler.should_handle (chars "123") QueryPropertyHandler.keywords
        ⟨chars "<@!123> please query aliases chess", chars "A"⟩ = some false := by
  refine ⟨by decide, by decide, by decide⟩

/-- Claim C3 (amended): for a message whose first token is a mention, the
QueryProperty handler applies exactly when that mention is the bot's and the
remainder after the mention starts, case-insensitively, with `query` — a
keyword occurring only later in the remainder does not make it apply. -/
theorem C3_query_should_handle_starts_with :
    ∀ (clientId : Str) (m : Message) (mention remainder : Str),
    split_by_first_mention m = some (mention, remainder) →
    MentionMessageHandler.should_handle clientId QueryPropertyHandler.keywords m =
      some (is_bot_mention clientId mention &&
        (chars "query").isPrefixOf (pyLower remainder)) := by
  intro clientId m mention remainder h
  simp [MentionMessageHandler.should_handle, h, QueryPropertyHandler.keywords]
  rfl

/-- Witness for claim C3's amended theorem at `<@!123> Query aliases chess`:
the remainder starts with `Query`, so the handler applies. -/
theorem C3_witness :
    MentionMessageHandler.should_handle (chars "123") QueryPropertyHandler.keywords
        ⟨chars "<@!123> Query aliases chess", chars "A"⟩ =
      some (is_bot_mention (chars "123") (chars "<@!123>") &&
        (chars "query").isPrefixOf (pyLower (chars "Query aliases chess"))) :=
  C3_query_should_handle_starts_with (chars "123")
    ⟨chars "<@!123> Query aliases chess", chars "A"⟩ (chars "<@!123>")
    (chars "Query aliases chess") (by decide)

/-- Claim C9: applicability is case-insensitive while keyword removal is
case-sensitive: the message `<@!123> Query aliases chess` is accepted by the
QueryProperty handler, yet `split_string_by_keywords` removes nothing and the
handler parses the capitalized keyword `Query` itself as the attribute name
(with `aliases` as the game name). -/
theorem C9_case_disagreement :
    MentionMessageHandler.should_handle (chars "123") QueryPropertyHandler.keywords
        ⟨chars "<@!123> Query aliases chess", chars "A"⟩ = some true
    ∧ MentionMessageHandler.split_string_by_keywords QueryPropertyHandler.keywords
        (chars "Query aliases chess") = (none, chars "Query aliases chess")
    ∧ QueryPropertyHandler.parse_attribute_and_game
        ⟨chars "<@!123> Query aliases chess", chars "A"⟩ =
      some (chars "Query", chars "aliases") := by
  refine ⟨by decide, by decide, by decide⟩

theorem pySplit_eq_of_not_mem (d : Char) (s : Str) (h : d ∉ s) : pySplit d s = [s] := by
  induction s with
  | nil => rfl
  | cons a t ih =>
    have ha : ¬ (a = d) := fun e => h (by simp [e])
    simp [pySplit, ha, ih fun hc => h (List.mem_cons_of_mem _ hc)]

theorem mention_content_shape (s : Str) (h : (chars "<@").isPrefixOf s = true) :
    ∃ t, s = '<' :: '@' :: t := by
  cases s with
  | nil => exact absurd h (by decide)
  | cons a t1 =>
    cases t1 with
    | nil => simp [chars, List.isPrefixOf] at h
    | cons b t =>
      simp [chars, List.isPrefixOf] at h
      exact ⟨t, by rw [h.1, h.2]⟩

theorem extract_eq_self_of_no_match (fragments : List Str) (s : Str)
    (h : ∀ f ∈ fragments, (pyLower f).isPrefixOf (pyLower s) = false) :
    extract_remainder_after_fragments fragments s = s := by
  unfold extract_remainder_after_fragments
  have hf : fragments.find? (fun f => (pyLower f).isPrefixOf (pyLower s)) = none := by
    apply List.find?_eq_none.mpr
    intro f hfm
    simp [h f hfm]
  rw [hf]

theorem clear_extract_on_mention (s : Str) (h : (chars "<@").isPrefixOf s = true) :
    extract_remainder_after_fragments ClearHandler.keywords s = s := by
  obtain ⟨t, rfl⟩ := mention_content_shape s h
  apply extract_eq_self_of_no_match
  intro f hfm
  have hf : f = chars "clear" := by simpa [ClearHandler.keywords] using hfm
  subst hf
  rfl

theorem pySplit_mention_head (t : Str) :
    ∃ s rest, pySplit '/' ('<' :: '@' :: t) = ('<' :: '@' :: s) :: rest := by
  cases h : pySplit '/' t with
  | nil => exact ⟨[], [], by simp [pySplit, h]⟩
  | cons a r => exact ⟨a, r, by simp [pySplit, h]⟩

theorem runPerGame_clear_all_none (catalog : List GameInfo) :
    ∀ (ns : List Str) (db : DB),
    (∀ n ∈ ns, n ≠ [] → lookup_game_by_name_or_alias catalog n = none) →
    runPerGame (fun db0 g => ClearHandler.get_all_responses_with_game db0 g)
        (lookup_game_by_name_or_alias catalog) db ns =
      some (db, List.replicate ((ns.filter fun n => !n.isEmpty).length)
        (chars "No game specified!")) := by
  intro ns
  induction ns with
  | nil =>
    intro db _
    rfl
  | cons n rest ih =>
    intro db h
    have hrest : ∀ x ∈ rest, x ≠ [] → lookup_game_by_name_or_alias catalog x = none :=
      fun x hx => h x (List.mem_cons_of_mem _ hx)
    cases he : n.isEmpty with
    | true =>
      simp [runPerGame, he, ih _ hrest, List.filter]
    | false =>
      have hne : n ≠ [] := by
        intro e
        rw [e] at he
        exact absurd he (by decide)
      have hn := h n (List.mem_cons_self _ _) hne
      have hw : ClearHandler.get_all_responses_with_game db
          (lookup_game_by_name_or_alias catalog n) =
          some (db, [chars "No game specified!"]) := by
        rw [hn]
        rfl
      simp only [runPerGame, he, hw, ih _ hrest]
      simp [List.filter, he, List.replicate]

/-- Claim C1: for every inbound message that is a bot mention followed by
`clear` with no game name after it (the tail empty or delimiter-only, so no
candidate of the `/`-split resolves in the catalog), the Clear handler's
`get_all_responses` returns a non-empty response sequence containing
`No game specified!`: the mention-led content never matches the `clear`
trigger fragment, so the whole content supplies the unresolvable non-empty
candidate(s), each answered by `No game specified!`. -/
theorem C1_clear_no_game_specified :
    ∀ (clientId : Str) (catalog : List GameInfo) (db : DB) (m : Message),
    MentionMessageHandler.should_handle clientId ClearHandler.keywords m = some true →
    (chars "<@").isPrefixOf m.content = true →
    (∀ n ∈ pySplit '/' m.content, n ≠ [] →
      lookup_game_by_name_or_alias catalog n = none) →
    ∃ msgs, ClearHandler.get_all_responses catalog db m = some (db, msgs)
      ∧ msgs ≠ [] ∧ chars "No game specified!" ∈ msgs := by
  intro clientId catalog db m _ h2 h3
  have hext := clear_extract_on_mention m.content h2
  obtain ⟨t, hshape⟩ := mention_content_shape m.content h2
  obtain ⟨s, rest, hsplit⟩ := pySplit_mention_head t
  have hnames : pySplit '/' m.content = ('<' :: '@' :: s) :: rest := by
    rw [hshape]
    exact hsplit
  have hany : (pySplit '/' m.content).any (fun n => !n.isEmpty) = true := by
    rw [hnames]
    rfl
  have hrun := runPerGame_clear_all_none catalog (pySplit '/' m.content) db h3
  have hk : ((pySplit '/' m.content).filter fun n => !n.isEmpty).length =
      ((rest.filter fun n => !n.isEmpty).length) + 1 := by
    rw [hnames]
    simp [List.filter]
  refine ⟨List.replicate (((pySplit '/' m.content).filter fun n => !n.isEmpty).length)
    (chars "No game specified!"), ?_, ?_, ?_⟩
  · simp only [ClearHandler.get_all_responses, GameExtractionMixin.get_all_responses,
      hext, hany, if_true]
    exact hrun
  · rw [hk]
    simp [List.replicate]
  · rw [hk]
    simp [List.replicate]

/-- Witness for claim C1 at the mention-led messages `<@!123> clear` (empty
tail) and `<@!123> clear /` (delimiter-only tail) against the chess/go
catalog: both yield a non-empty response sequence containing
`No game specified!`. -/
theorem C1_clear_witness :
    (∃ msgs, ClearHandler.get_all_responses [chessG, goG] dbEmpty
        ⟨chars "<@!123> clear", chars "A"⟩ = some (dbEmpty, msgs)
      ∧ msgs ≠ [] ∧ chars "No game specified!" ∈ msgs)
    ∧ (∃ msgs, ClearHandler.get_all_responses [chessG, goG] dbEmpty
        ⟨chars "<@!123> clear /", chars "A"⟩ = some (dbEmpty, msgs)
      ∧ msgs ≠ [] ∧ chars "No game specified!" ∈ msgs) :=
  ⟨C1_clear_no_game_specified (chars "123") [chessG, goG] dbEmpty
      ⟨chars "<@!123> clear", chars "A"⟩ (by decide) (by decide) (by decide),
    C1_clear_no_game_specified (chars "123") [chessG, goG] dbEmpty
      ⟨chars "<@!123> clear /", chars "A"⟩ (by decide) (by decide) (by decide)⟩

/-- Counterexample to claim C2: the Ping handler does not complete without
error on an unresolved game name — on `ping zzz` with a catalog that does not
resolve `zzz`, `get_all_responses` raises (dereferences the absent game). -/
theorem C2_counterexample :
    PingHandler.get_all_responses [chessG, goG] dbEmpty ⟨chars "ping zzz", chars "A"⟩ =
      none := by
  decide

/-- Claim C2 (amended): of the game-resolving handlers other than
QueryProperty, Clear and Same treat an unresolved catalog lookup as an
explicit case and complete without error, but Ping and WouldPlay dereference
the absent game and raise. -/
theorem C2_unresolved_game :
    ∀ (db : DB) (author : Str),
    ClearHandler.get_all_responses_with_game db none =
      some (db, [chars "No game specified!"])
    ∧ (SameHandler.get_all_responses_with_game author db none).isSome = true
    ∧ PingHandler.get_all_responses_with_game db none = none
    ∧ WouldPlayHandler.get_all_responses_with_game author db none = none := by
  intro db author
  exact ⟨rfl, rfl, rfl, rfl⟩

theorem runPerGame_append (w : DB → Option GameInfo → Option (DB × List Str))
    (l : Str → Option GameInfo) :
    ∀ (ns1 ns2 : List Str) (db : DB),
    runPerGame w l db (ns1 ++ ns2) =
      (runPerGame w l db ns1).bind fun p =>
        (runPerGame w l p.1 ns2).map fun q => (q.1, p.2 ++ q.2) := by
  intro ns1
  induction ns1 with
  | nil =>
    intro ns2 db
    cases h : runPerGame w l db ns2 <;> simp [runPerGame, h]
  | cons n ns ih =>
    intro ns2 db
    cases he : n.isEmpty with
    | true => simp [runPerGame, he, ih]
    | false =>
      cases hw : w db (l n) with
      | none => simp [runPerGame, he, hw]
      | some p =>
        cases hr : runPerGame w l p.1 ns with
        | none => simp [runPerGame, he, hw, ih, hr]
        | some q =>
          cases hr2 : runPerGame w l q.1 ns2 with
          | none => simp [runPerGame, he, hw, ih, hr, hr2]
          | some r => simp [runPerGame, he, hw, ih, hr, hr2]

theorem runPerGame_single (w : DB → Option GameInfo → Option (DB × List Str))
    (l : Str → Option GameInfo) (db : DB) (n : Str) (h : n.isEmpty = false) :
    runPerGame w l db [n] = w db (l n) := by
  cases hw : w db (l n) with
  | none => simp [runPerGame, h, hw]
  | some p => simp [runPerGame, h, hw]

theorem runPerGame_eq_filter (w : DB → Option GameInfo → Option (DB × List Str))
    (l : Str → Option GameInfo) :
    ∀ (ns : List Str) (db : DB),
    runPerGame w l db ns = runPerGame w l db (ns.filter fun n => !n.isEmpty) := by
  intro ns
  induction ns with
  | nil => intro db; rfl
  | cons n rest ih =>
    intro db
    cases he : n.isEmpty with
    | true => simp [runPerGame, he, List.filter, ih]
    | false =>
      cases hw : w db (l n) with
      | none => simp [runPerGame, he, List.filter, hw]
      | some p => simp [runPerGame, he, List.filter, hw, ih]

theorem runPerGame_lookup_agree (w : DB → Option GameInfo → Option (DB × List Str))
    (l1 l2 : Str → Option GameInfo) (h : ∀ n, n ≠ [] → l1 n = l2 n) :
    ∀ (ns : List Str) (db : DB),
    runPerGame w l1 db ns = runPerGame w l2 db ns := by
  intro ns
  induction ns with
  | nil => intro db; rfl
  | cons n rest ih =>
    intro db
    cases he : n.isEmpty with
    | true => simp [runPerGame, he, ih]
    | false =>
      have hne : n ≠ [] := by
        intro e
        rw [e] at he
        exact absurd he (by decide)
      rw [runPerGame, runPerGame, he]
      rw [h n hne]
      simp [ih]

/-- Claim C4: for every multi-game handler (an arbitrary per-game generator,
no-game fallback and catalog lookup) and every message, if splitting the
post-fragment remainder on `/` yields at least one non-empty candidate, the
per-game generator is run over the candidates left-to-right with all results
concatenated (the loop decomposes over `++` and acts as the generator on each
single non-empty candidate); if the split yields nothing usable, the no-game
fallback is invoked instead; concretely, `I'd play chess/go` yields the chess
commitment followed by the go commitment. -/
theorem C4_multi_game_extraction :
    (∀ (fragments : List Str) (lookup : Str → Option GameInfo)
        (withGame : DB → Option GameInfo → Option (DB × List Str))
        (withoutGame : DB → Option (DB × List Str)) (db : DB) (m : Message),
      ((pySplit '/' (extract_remainder_after_fragments fragments m.content)).any
          (fun n => !n.isEmpty) = true →
        GameExtractionMixin.get_all_responses fragments lookup withGame withoutGame db m =
          runPerGame withGame lookup db
            (pySplit '/' (extract_remainder_after_fragments fragments m.content)))
      ∧ ((pySplit '/' (extract_remainder_after_fragments fragments m.content)).any
          (fun n => !n.isEmpty) = false →
        GameExtractionMixin.get_all_responses fragments lookup withGame withoutGame db m =
          withoutGame db))
    ∧ (∀ (w : DB → Option GameInfo → Option (DB × List Str))
        (l : Str → Option GameInfo) (ns1 ns2 : List Str) (db : DB),
      runPerGame w l db (ns1 ++ ns2) =
        (runPerGame w l db ns1).bind fun p =>
          (runPerGame w l p.1 ns2).map fun q => (q.1, p.2 ++ q.2))
    ∧ (∀ (w : DB → Option GameInfo → Option (DB × List Str))
        (l : Str → Option GameInfo) (db : DB) (n : Str), n.isEmpty = false →
      runPerGame w l db [n] = w db (l n))
    ∧ WouldPlayHandler.get_all_responses [chessG, goG] dbEmpty
        ⟨chars "I\x27d play chess/go", chars "A"⟩ =
      some (⟨[⟨chars "A", goG, 1⟩, ⟨chars "A", chessG, 0⟩], 2⟩,
        [chars "A would play chess (that\x27s 1)", chars "A would play go (that\x27s 1)"]) := by
  refine ⟨?_, runPerGame_append, runPerGame_single, by decide⟩
  intro fragments lookup withGame withoutGame db m
  constructor
  · intro h
    simp [GameExtractionMixin.get_all_responses, h]
  · intro h
    simp [GameExtractionMixin.get_all_responses, h]

/-- Witness for claim C4 at concrete inputs: the dispatch condition and the
loop laws evaluated on `chess/go` with the would-play generator. -/
theorem C4_witness :
    GameExtractionMixin.get_all_responses WouldPlayHandler.fragments
        (lookup_game_by_name_or_alias [chessG, goG])
        (WouldPlayHandler.get_all_responses_with_game (chars "A"))
        (fun db0 => some (db0, [])) dbEmpty ⟨chars "I\x27d play chess/go", chars "A"⟩ =
      runPerGame (WouldPlayHandler.get_all_responses_with_game (chars "A"))
        (lookup_game_by_name_or_alias [chessG, goG]) dbEmpty
        (pySplit '/' (extract_remainder_after_fragments WouldPlayHandler.fragments
          (chars "I\x27d play chess/go")))
    ∧ runPerGame (WouldPlayHandler.get_all_responses_with_game (chars "A"))
        (lookup_game_by_name_or_alias [chessG, goG]) dbEmpty [chars "chess"] =
      WouldPlayHandler.get_all_responses_with_game (chars "A") dbEmpty
        (lookup_game_by_name_or_alias [chessG, goG] (chars "chess")) :=
  ⟨(C4_multi_game_extraction.1 WouldPlayHandler.fragments
      (lookup_game_by_name_or_alias [chessG, goG])
      (WouldPlayHandler.get_all_responses_with_game (chars "A"))
      (fun db0 => some (db0, [])) dbEmpty
      ⟨chars "I\x27d play chess/go", chars "A"⟩).1 (by decide),
    C4_multi_game_extraction.2.2.1 (WouldPlayHandler.get_all_responses_with_game (chars "A"))
      (lookup_game_by_name_or_alias [chessG, goG]) dbEmpty (chars "chess") (by decide)⟩

/-- Claim C10: empty candidates of the `/` split are silently skipped — the
mixin loop equals itself on the empty-filtered candidate list, its result is
unchanged when the catalog lookup is replaced by one that agrees only on
non-empty names (so the lookup is never consulted for an empty segment), and
doubled delimiters as in `chess//go` change nothing against `chess/go`. -/
theorem C10_empty_candidates_skipped :
    (∀ (w : DB → Option GameInfo → Option (DB × List Str))
        (l : Str → Option GameInfo) (db : DB) (ns : List Str),
      runPerGame w l db ns = runPerGame w l db (ns.filter fun n => !n.isEmpty))
    ∧ (∀ (w : DB → Option GameInfo → Option (DB × List Str))
        (l1 l2 : Str → Option GameInfo), (∀ n, n ≠ [] → l1 n = l2 n) →
      ∀ (db : DB) (ns : List Str), runPerGame w l1 db ns = runPerGame w l2 db ns)
    ∧ (∀ (w : DB → Option GameInfo → Option (DB × List Str))
        (l : Str → Option GameInfo) (db : DB),
      runPerGame w l db (pySplit '/' (chars "chess//go")) =
        runPerGame w l db (pySplit '/' (chars "chess/go"))) := by
  refine ⟨fun w l db ns => runPerGame_eq_filter w l ns db,
    fun w l1 l2 h db ns => runPerGame_lookup_agree w l1 l2 h ns db, ?_⟩
  intro w l db
  rw [runPerGame_eq_filter w l (pySplit '/' (chars "chess//go")) db,
    runPerGame_eq_filter w l (pySplit '/' (chars "chess/go")) db]
  have h1 : (pySplit '/' (chars "chess//go")).filter (fun n => !n.isEmpty) =
      [chars "chess", chars "go"] := by decide
  have h2 : (pySplit '/' (chars "chess/go")).filter (fun n => !n.isEmpty) =
      [chars "chess", chars "go"] := by decide
  rw [h1, h2]

/-- Witness for claim C10: replacing the lookup by one that differs only on
the empty name leaves the would-play run over `chess//go` unchanged. -/
theorem C10_witness :
    runPerGame (WouldPlayHandler.get_all_responses_with_game (chars "A"))
        (lookup_game_by_name_or_alias [chessG, goG]) dbEmpty
        (pySplit '/' (chars "chess//go")) =
      runPerGame (WouldPlayHandler.get_all_responses_with_game (chars "A"))
        (fun n => if n = [] then some chessG
          else lookup_game_by_name_or_alias [chessG, goG] n) dbEmpty
        (pySplit '/' (chars "chess//go")) :=
  C10_empty_candidates_skipped.2.1
    (WouldPlayHandler.get_all_responses_with_game (chars "A"))
    (lookup_game_by_name_or_alias [chessG, goG])
    (fun n => if n = [] then some chessG
      else lookup_game_by_name_or_alias [chessG, goG] n)
    (fun n hn => by simp [hn]) dbEmpty (pySplit '/' (chars "chess//go"))

theorem isPrefixOf_of_eq_append (x rest msg : Str) (h : msg = x ++ rest) :
    x.isPrefixOf msg = true := by
  rw [h]
  exact isPrefixOf_self_append x rest

theorem isPrefixOf_chunks (x a b c d : Str) :
    x.isPrefixOf (x ++ a ++ b ++ c ++ d) = true := by
  apply isPrefixOf_of_eq_append x (a ++ (b ++ (c ++ d)))
  simp [List.append_assoc]

theorem recordLoop_msgs (author : Str) : ∀ (gs : List GameInfo) (db : DB),
    (SameHandler.recordLoop author db gs).2.length = gs.length
    ∧ ∀ msg ∈ (SameHandler.recordLoop author db gs).2,
      (author ++ chars " would also play ").isPrefixOf msg = true := by
  intro gs
  induction gs with
  | nil =>
    intro db
    exact ⟨rfl, by intro msg hm; cases hm⟩
  | cons g rest ih =>
    intro db
    constructor
    · simp [SameHandler.recordLoop, (ih _).1]
    · intro msg hm
      simp only [SameHandler.recordLoop, DB.record_would_play, List.mem_cons] at hm
      rcases hm with hm | hm
      · rw [hm]
        exact isPrefixOf_chunks (author ++ chars " would also play ") g.name
          (chars " (that\x27s ") _ (chars ")")
      · exact (ih _).2 msg hm

theorem recordLoop_records (author : Str) : ∀ (gs : List GameInfo) (db : DB),
    (∀ r ∈ db.records, r ∈ (SameHandler.recordLoop author db gs).1.records)
    ∧ ∀ g ∈ gs, ∃ rec ∈ (SameHandler.recordLoop author db gs).1.records,
        rec.user = author ∧ rec.game = g := by
  intro gs
  induction gs with
  | nil =>
    intro db
    exact ⟨fun r hr => hr, by intro g hg; cases hg⟩
  | cons g rest ih =>
    intro db
    have hmono : ∀ r ∈ (db.record_would_play author g).1.records,
        r ∈ (SameHandler.recordLoop author (db.record_would_play author g).1 rest).1.records :=
      (ih _).1
    constructor
    · intro r hr
      have hr1 : r ∈ (db.record_would_play author g).1.records :=
        List.mem_cons_of_mem _ hr
      simpa [SameHandler.recordLoop] using hmono r hr1
    · intro g' hg'
      rcases List.mem_cons.mp hg' with hg' | hg'
      · refine ⟨⟨author, g, db.clock⟩, ?_, rfl, hg'.symm ▸ rfl⟩
        have hmem : (⟨author, g, db.clock⟩ : WouldPlayRec) ∈
            (db.record_would_play author g).1.records := List.mem_cons_self _ _
        simpa [SameHandler.recordLoop] using hmono _ hmem
      · obtain ⟨rec, hmem, hu, hgm⟩ := (ih (db.record_would_play author g).1).2 g' hg'
        exact ⟨rec, by simpa [SameHandler.recordLoop] using hmem, hu, hgm⟩

/-- Claim C5: the Same handler with no game specified returns no responses
(never an error) when there is no prior would-play; otherwise it records an
intent of the message author for every game of the most recent batch, and its
response sequence is a block of commitment announcements (one per affected
game, each beginning `<author> would also play `) followed by a block of
readiness messages of affected games — every commitment precedes every
readiness message. -/
theorem C5_same_handler_without_game :
    ∀ (db : DB) (author : Str),
    (db.get_last_would_plays_at_same_time = [] →
      SameHandler.get_all_responses_without_game author db = (db, []))
    ∧ (db.get_last_would_plays_at_same_time ≠ [] →
      ∃ commits readies,
        (SameHandler.get_all_responses_without_game author db).2 = commits ++ readies
        ∧ commits.length =
            ((db.get_last_would_plays_at_same_time.map (·.game)).dedup).length
        ∧ (∀ msg ∈ commits,
            (author ++ chars " would also play ").isPrefixOf msg = true)
        ∧ (∀ msg ∈ readies,
            ∃ g ∈ db.get_last_would_plays_at_same_time.map (·.game),
              msg ∈ g.readyMessages)
        ∧ (∀ r ∈ db.get_last_would_plays_at_same_time,
            ∃ rec ∈ (SameHandler.get_all_responses_without_game author db).1.records,
              rec.user = author ∧ rec.game = r.game)) := by
  intro db author
  constructor
  · intro h
    simp [SameHandler.get_all_responses_without_game, h]
  · intro h
    have hne : db.get_last_would_plays_at_same_time.isEmpty = false := by
      cases hh : db.get_last_would_plays_at_same_time with
      | nil => exact absurd hh h
      | cons a t => rfl
    have hdef : SameHandler.get_all_responses_without_game author db =
        ((SameHandler.recordLoop author db
            ((db.get_last_would_plays_at_same_time.map (·.game)).dedup)).1,
          (SameHandler.recordLoop author db
            ((db.get_last_would_plays_at_same_time.map (·.game)).dedup)).2 ++
            ((db.get_last_would_plays_at_same_time.map (·.game)).dedup).flatMap
              (get_any_ready_messages (SameHandler.recordLoop author db
                ((db.get_last_would_plays_at_same_time.map (·.game)).dedup)).1)) := by
      simp [SameHandler.get_all_responses_without_game, hne]
    refine ⟨(SameHandler.recordLoop author db
        ((db.get_last_would_plays_at_same_time.map (·.game)).dedup)).2,
      ((db.get_last_would_plays_at_same_time.map (·.game)).dedup).flatMap
        (get_any_ready_messages (SameHandler.recordLoop author db
          ((db.get_last_would_plays_at_same_time.map (·.game)).dedup)).1),
      by rw [hdef], (recordLoop_msgs author _ db).1,
      (recordLoop_msgs author _ db).2, ?_, ?_⟩
    · intro msg hmsg
      obtain ⟨g, hgmem, hmsg2⟩ := List.mem_flatMap.mp hmsg
      refine ⟨g, List.mem_dedup.mp hgmem, ?_⟩
      by_cases hr : ((SameHandler.recordLoop author db
          ((db.get_last_would_plays_at_same_time.map (·.game)).dedup)).1).is_ready_to_play g
      · simpa [get_any_ready_messages, hr, GameInfo.get_ready_messages] using hmsg2
      · simp [get_any_ready_messages, hr] at hmsg2
    · intro r hr
      rw [hdef]
      have hgm : r.game ∈ (db.get_last_would_plays_at_same_time.map (·.game)).dedup :=
        List.mem_dedup.mpr (List.mem_map_of_mem _ hr)
      exact (recordLoop_records author _ db).2 r.game hgm

/-- Witness for claim C5: the empty store gives no responses; the store with
one record for chess satisfies the commitments-then-readiness shape. -/
theorem C5_witness :
    SameHandler.get_all_responses_without_game (chars "A") dbEmpty = (dbEmpty, [])
    ∧ ∃ commits readies,
        (SameHandler.get_all_responses_without_game (chars "A") dbOne).2 =
          commits ++ readies
        ∧ commits.length =
            ((dbOne.get_last_would_plays_at_same_time.map (·.game)).dedup).length
        ∧ (∀ msg ∈ commits,
            (chars "A" ++ chars " would also play ").isPrefixOf msg = true)
        ∧ (∀ msg ∈ readies,
            ∃ g ∈ dbOne.get_last_would_plays_at_same_time.map (·.game),
              msg ∈ g.readyMessages)
        ∧ (∀ r ∈ dbOne.get_last_would_plays_at_same_time,
            ∃ rec ∈ (SameHandler.get_all_responses_without_game
                (chars "A") dbOne).1.records,
              rec.user = chars "A" ∧ rec.game = r.game) :=
  ⟨(C5_same_handler_without_game dbEmpty (chars "A")).1 rfl,
    (C5_same_handler_without_game dbOne (chars "A")).2 (by decide)⟩

theorem intercalate_cons_exists (sep a : Str) (l : List Str) :
    ∃ t, List.intercalate sep (a :: l) = a ++ t := by
  cases l with
  | nil => exact ⟨[], by simp [List.intercalate, List.intersperse]⟩
  | cons b t =>
    refine ⟨sep ++ List.intercalate sep (b :: t), ?_⟩
    simp [List.intercalate, List.intersperse, List.append_assoc]

theorem statusLoop_eq (db : DB) : ∀ (catalog : List GameInfo),
    StatusHandler.loop db catalog =
      ((catalog.filter fun g => !(db.get_available_players g).isEmpty).map
        (fun g => g.name ++ chars " has " ++ natStr (db.get_available_players g).length),
       (catalog.filter fun g => !(db.get_available_players g).isEmpty).flatMap
        (get_any_ready_messages db)) := by
  intro catalog
  induction catalog with
  | nil => rfl
  | cons g gs ih =>
    cases he : (db.get_available_players g).isEmpty with
    | true => simp [StatusHandler.loop, he, List.filter, ih]
    | false => simp [StatusHandler.loop, he, List.filter, ih]

/-- Claim C7: for every message that is a bot mention followed by `status`
and every roster state, the Status handler returns exactly one string; it is
the newline-join of `Bot alive`, one count line per catalog game with at
least one available player (in catalog order), and then the readiness
messages of each such ready game; in particular the single reply starts with
`Bot alive`. -/
theorem C7_status_handler :
    ∀ (clientId : Str) (m : Message) (catalog : List GameInfo) (db : DB),
    MentionMessageHandler.should_handle clientId StatusHandler.keywords m = some true →
    StatusHandler.get_all_responses catalog db =
      [List.intercalate (chars "\n")
        ((chars "Bot alive" ::
          (catalog.filter fun g => !(db.get_available_players g).isEmpty).map
            (fun g => g.name ++ chars " has " ++
              natStr (db.get_available_players g).length)) ++
          (catalog.filter fun g => !(db.get_available_players g).isEmpty).flatMap
            (get_any_ready_messages db))]
    ∧ ∃ t, StatusHandler.get_all_responses catalog db = [chars "Bot alive" ++ t] := by
  intro clientId m catalog db h
  have h1 : StatusHandler.get_all_responses catalog db =
      [List.intercalate (chars "\n")
        ((chars "Bot alive" ::
          (catalog.filter fun g => !(db.get_available_players g).isEmpty).map
            (fun g => g.name ++ chars " has " ++
              natStr (db.get_available_players g).length)) ++
          (catalog.filter fun g => !(db.get_available_players g).isEmpty).flatMap
            (get_any_ready_messages db))] := by
    simp [StatusHandler.get_all_responses, statusLoop_eq]
  refine ⟨h1, ?_⟩
  obtain ⟨t, ht⟩ := intercalate_cons_exists (chars "\n") (chars "Bot alive")
    (((catalog.filter fun g => !(db.get_available_players g).isEmpty).map
      (fun g => g.name ++ chars " has " ++
        natStr (db.get_available_players g).length)) ++
      (catalog.filter fun g => !(db.get_available_players g).isEmpty).flatMap
        (get_any_ready_messages db))
  refine ⟨t, ?_⟩
  rw [h1, ← ht]
  rw [List.cons_append]

/-- Witness for claim C7 at the message `<@!123> status` with a one-record
roster over the chess/go catalog. -/
theorem C7_witness :
    StatusHandler.get_all_responses [chessG, goG] dbOne =
      [List.intercalate (chars "\n")
        ((chars "Bot alive" ::
          ([chessG, goG].filter fun g => !(dbOne.get_available_players g).isEmpty).map
            (fun g => g.name ++ chars " has " ++
              natStr (dbOne.get_available_players g).length)) ++
          ([chessG, goG].filter fun g => !(dbOne.get_available_players g).isEmpty).flatMap
            (get_any_ready_messages dbOne))]
    ∧ ∃ t, StatusHandler.get_all_responses [chessG, goG] dbOne =
        [chars "Bot alive" ++ t] :=
  C7_status_handler (chars "123") ⟨chars "<@!123> status", chars "A"⟩ [chessG, goG]
    dbOne (by decide)
